import Mathlib

/-!
Shallow embedding of `src/metrics_analyzer.py` (class `MetricsAnalyzer`):
the class-model builder (`visit_ClassDef`, `analyze_method`), the metric
functions (`calculate_dit`, `calculate_cbo`, `calculate_lcom`) and the
flag/report fragments of `generate_report`, together with theorems settling
the specification claims about them.

Python dictionaries are embedded as insertion-ordered association lists
(`List (String × α)`); `defaultdict` access that inserts a default entry on
a missing key is made explicit (`updateA`, `dGet`).  Python sets are
embedded as duplicate-free lists in insertion order (`setAdd`); only their
cardinality and membership matter to the metrics.  The unbounded `while`
loop of `calculate_dit` is embedded with explicit fuel returning `Option`:
`none` means the loop has not finished within the given fuel, so divergence
of the Python loop is `∀ fuel, result = none`.
-/

set_option autoImplicit false
set_option linter.unnecessarySeqFocus false

namespace UniMetrics

/-- First binding for a key in an insertion-ordered association list
(Python `dict` lookup / `in` test). -/
def lookupA {α : Type} : List (String × α) → String → Option α
  | [], _ => none
  | p :: rest, k => if p.1 = k then some p.2 else lookupA rest k

/-- Python `dict` assignment `m[k] = v`: replace in place if the key exists,
else append the new binding at the end (insertion order). -/
def insertA {α : Type} : List (String × α) → String → α → List (String × α)
  | [], k, v => [(k, v)]
  | p :: rest, k, v => if p.1 = k then (k, v) :: rest else p :: insertA rest k v

/-- Python `defaultdict` mutation `m[k].mutate`: if the key is absent the
default `d` is first inserted, then the stored value is transformed by `f`. -/
def updateA {α : Type} : List (String × α) → String → α → (α → α) → List (String × α)
  | [], k, d, f => [(k, f d)]
  | p :: rest, k, d, f => if p.1 = k then (k, f p.2) :: rest else p :: updateA rest k d f

/-- Python `defaultdict` read `m[k]`: returns the stored value, or inserts
and returns the default `d` when the key is absent.  The possibly-grown map
is returned alongside the value (this is the side effect of `__getitem__`). -/
def dGet {α : Type} : List (String × α) → String → α → α × List (String × α)
  | [], k, d => (d, [(k, d)])
  | p :: rest, k, d =>
      if p.1 = k then (p.2, p :: rest)
      else
        let r := dGet rest k d
        (r.1, p :: r.2)

/-- Python `set.add`: append if not already present. -/
def setAdd (s : List String) (a : String) : List String :=
  if a ∈ s then s else s ++ [a]

/-- One node yielded by `ast.walk` over a method body, restricted to the
shapes `analyze_method` inspects: an `ast.Attribute` whose `value` may be an
`ast.Name` (carrying that name), an `ast.Name`, or any other node.  Decision
nodes (`If`, `For`, `While`, `ExceptHandler`, `BoolOp`) match none of the
`isinstance` checks in `analyze_method` and are carried as distinct
constructors only so that the spec-side decision-point count can see them. -/
inductive WalkNode where
  | attrNode (value : Option String) (attr : String)
  | nameNode (id : String)
  | ifNode
  | forNode
  | whileNode
  | exceptHandlerNode
  | boolOpNode
  | otherNode
deriving DecidableEq, Repr

/-- A base-class expression of a `ClassDef`: a plain `ast.Name`, or any
other expression (e.g. a dotted attribute). -/
inductive BaseExpr where
  | name (id : String)
  | other
deriving DecidableEq, Repr

/-- A statement in a class body: a `FunctionDef` with the walk of its body,
or any other statement. -/
inductive Stmt where
  | functionDef (name : String) (walk : List WalkNode)
  | otherStmt
deriving DecidableEq, Repr

/-- A class declaration as `visit_ClassDef` consumes it. -/
structure ClassDecl where
  name : String
  bases : List BaseExpr
  body : List Stmt
deriving DecidableEq, Repr

/-- The per-class record stored in `self.classes[name]`. -/
structure ClassInfo where
  methods : List String
  attributes : List String
  base_classes : List String
  lines : Nat
deriving DecidableEq, Repr

/-- The mutable state of `MetricsAnalyzer` (its `__init__` fields). -/
structure Analyzer where
  classes : List (String × ClassInfo)
  inheritance_tree : List (String × String)
  coupling : List (String × List String)
  methods_per_class : List (String × List String)
  attributes_per_class : List (String × List String)
  method_attribute_usage : List (String × List (String × List String))
deriving DecidableEq, Repr

/-- The analyzer's initial state (`__init__`). -/
def initAnalyzer : Analyzer := ⟨[], [], [], [], [], []⟩

/-- The hard-coded list of recognized class names in `analyze_method`. -/
def knownClasses : List String := ["Student", "Course", "Lecturer", "Registrar", "Person"]

/-- One step of `analyze_method`'s walk loop on a single node: record
`self.<attr>` accesses, and coupling to names in the hard-coded list other
than the visited class (the third `isinstance` block of the source is a
no-op `pass` and is omitted). -/
def analyzeNode (class_name method_name : String) (s : Analyzer) (n : WalkNode) : Analyzer :=
  let s1 :=
    match n with
    | WalkNode.attrNode (some v) a =>
        if v = "self" then
          { s with
            attributes_per_class :=
              updateA s.attributes_per_class class_name [] (fun l => setAdd l a),
            method_attribute_usage :=
              updateA s.method_attribute_usage class_name []
                (fun inner => updateA inner method_name [] (fun l => setAdd l a)) }
        else s
    | _ => s
  match n with
  | WalkNode.nameNode id =>
      if id ∈ knownClasses ∧ id ≠ class_name then
        { s1 with coupling := updateA s1.coupling class_name [] (fun l => setAdd l id) }
      else s1
  | _ => s1

/-- `analyze_method`: walk every node of the method body in order. -/
def analyze_method (class_name method_name : String) (walk : List WalkNode) (s : Analyzer) :
    Analyzer :=
  walk.foldl (analyzeNode class_name method_name) s

/-- The `base.id if isinstance(base, ast.Name) else 'object'` comprehension. -/
def baseToStr : BaseExpr → String
  | BaseExpr.name i => i
  | BaseExpr.other => "object"

/-- The `for base in node.bases` loop storing inheritance: each `ast.Name`
base overwrites `inheritance_tree[node.name]`. -/
def recordBases (t : List (String × String)) (n : String) (bs : List BaseExpr) :
    List (String × String) :=
  bs.foldl
    (fun acc b =>
      match b with
      | BaseExpr.name i => insertA acc n i
      | BaseExpr.other => acc)
    t

/-- One iteration of the `for item in node.body` loop of `visit_ClassDef`:
for a `FunctionDef`, append the method name to `classes[cname].methods` and
to `methods_per_class[cname]`, then run `analyze_method` on its walk. -/
def processStmt (cname : String) (st : Analyzer) : Stmt → Analyzer
  | Stmt.functionDef mname walk =>
      let st1 : Analyzer :=
        { st with
          classes :=
            match lookupA st.classes cname with
            | some ci => insertA st.classes cname { ci with methods := ci.methods ++ [mname] }
            | none => st.classes }
      let st2 : Analyzer :=
        { st1 with
          methods_per_class :=
            updateA st1.methods_per_class cname [] (fun l => l ++ [mname]) }
      analyze_method cname mname walk st2
  | Stmt.otherStmt => st

/-- `visit_ClassDef`: register the class record, store inheritance from its
bases, then process each `FunctionDef` of the body. -/
def visit_ClassDef (s : Analyzer) (node : ClassDecl) : Analyzer :=
  let s1 : Analyzer :=
    { s with
      classes := insertA s.classes node.name
        { methods := [], attributes := [], base_classes := node.bases.map baseToStr,
          lines := node.body.length } }
  let s2 : Analyzer := { s1 with inheritance_tree := recordBases s1.inheritance_tree node.name node.bases }
  node.body.foldl (processStmt node.name) s2

/-- Visiting a whole analysis unit: fold `visit_ClassDef` over the
top-level class declarations starting from the fresh analyzer. -/
def buildState (decls : List ClassDecl) : Analyzer :=
  decls.foldl visit_ClassDef initAnalyzer

/-- The `while current in self.inheritance_tree` loop of `calculate_dit`,
with explicit fuel; `none` means the loop has not exited within `fuel`
iterations. -/
def ditLoop (tree : List (String × String)) : Nat → String → Nat → Option Nat
  | 0, _, _ => none
  | fuel + 1, current, depth =>
      match lookupA tree current with
      | some parent => ditLoop tree fuel parent (depth + 1)
      | none => some depth

/-- `calculate_dit`: follow parent links counting hops.  The Python loop is
unbounded; the fuel parameter makes its (non-)termination observable. -/
def calculate_dit (s : Analyzer) (class_name : String) (fuel : Nat) : Option Nat :=
  ditLoop s.inheritance_tree fuel class_name 0

/-- `calculate_cbo`: `len(self.coupling[class_name])` on a `defaultdict`;
the returned state records the possible insertion of an empty entry. -/
def calculate_cbo (s : Analyzer) (class_name : String) : Nat × Analyzer :=
  let r := dGet s.coupling class_name []
  (r.1.length, { s with coupling := r.2 })

/-- Non-empty intersection test `attrs1 & attrs2` used by `calculate_lcom`. -/
def sharesAttrs (a b : List String) : Bool :=
  a.any (fun x => x ∈ b)

/-- The nested `for i, method1 ... for method2 in methods[i+1:]` loops of
`calculate_lcom`, accumulating `(p, q)` over all index pairs `i < j`. -/
def lcomLoop (f : String → List String) : List String → Nat × Nat
  | [] => (0, 0)
  | m :: rest =>
      let shared := (rest.filter (fun m2 => sharesAttrs (f m) (f m2))).length
      let pq := lcomLoop f rest
      (pq.1 + (rest.length - shared), pq.2 + shared)

/-- `calculate_lcom`: `0` for at most one declared method, otherwise
`max(p - q, 0)` (which on naturals is truncated subtraction `p - q`).
`defaultdict` reads may insert empty entries into the returned state. -/
def calculate_lcom (s : Analyzer) (class_name : String) : Nat × Analyzer :=
  let rm := dGet s.methods_per_class class_name []
  let methods := rm.1
  let s1 : Analyzer := { s with methods_per_class := rm.2 }
  if methods.length ≤ 1 then (0, s1)
  else
    let ra := dGet s1.method_attribute_usage class_name []
    let method_attrs := ra.1
    let s2 : Analyzer := { s1 with method_attribute_usage := ra.2 }
    let f := fun m => (lookupA method_attrs m).getD []
    let pq := lcomLoop f methods
    (pq.1 - pq.2, s2)

/-- A row of 80 dashes, `"-" * 80`. -/
def dash80 : String := String.mk (List.replicate 80 '-')

/-- The cyclomatic-complexity section of `generate_report` (source lines
118 to 126): the appended strings are literals and read nothing from the
analyzer state, which the parameter makes explicit. -/
def ccSectionLines (_s : Analyzer) : List String :=
  [ "1. CYCLOMATIC COMPLEXITY (CC)",
    dash80,
    "Method/Function                              | CC  | Grade | Issues",
    dash80,
    "Student.calculate_performance                | 17  | C     | HIGH - Needs refactoring",
    "Student.register_course                      | 3   | A     | OK",
    "Registrar.full_report                        | 4   | A     | OK",
    "main()                                       | 1   | A     | OK (but long)",
    "" ]

/-- The issue-flag computation of `generate_report` (source lines 149 to
155): three hard-coded strict thresholds, flags appended in a fixed order. -/
def issuesFor (cbo lcom methods : Nat) : List String :=
  (if 3 < cbo then ["High coupling"] else []) ++
  (if 5 < lcom then ["Low cohesion"] else []) ++
  (if 7 < methods then ["Too many methods"] else [])

/-- `", ".join(issues) if issues else "OK"` (source line 157). -/
def issueStr (issues : List String) : String :=
  if issues.isEmpty then "OK" else String.intercalate ", " issues

/-! ## Spec-side definitions

These follow the specification's words, for comparison with the code-side
definitions above. -/

/-- Modelled from the spec: the Threshold Evaluator configuration of §4.3,
three named thresholds, defaults 3, 5 and 7. -/
structure Config where
  cboHighCoupling : Nat
  lcomLowCohesion : Nat
  maxMethodCount : Nat
deriving DecidableEq, Repr

/-- The documented default configuration (3, 5, 7). -/
def defaultConfig : Config := ⟨3, 5, 7⟩

/-- Modelled from the spec: `evaluate(classEntity, metricsVector, config)`
emitting each flag when its metric strictly exceeds the configured
threshold, in the documented order.  The spec's flag names `HighCoupling`,
`LowCohesion`, `TooManyMethods` are rendered with the report's strings. -/
def evaluate (cfg : Config) (cbo lcom methodCount : Nat) : List String :=
  (if cfg.cboHighCoupling < cbo then ["High coupling"] else []) ++
  (if cfg.lcomLowCohesion < lcom then ["Low cohesion"] else []) ++
  (if cfg.maxMethodCount < methodCount then ["Too many methods"] else [])

/-- Whether a walk node is a decision point in the spec's sense (§4.2):
a conditional branch, a loop, an exception clause or a short-circuit
boolean operator. -/
def isDecision : WalkNode → Bool
  | WalkNode.ifNode => true
  | WalkNode.forNode => true
  | WalkNode.whileNode => true
  | WalkNode.exceptHandlerNode => true
  | WalkNode.boolOpNode => true
  | _ => false

/-- Modelled from the spec: number of decision points in a method body. -/
def decisionPoints (walk : List WalkNode) : Nat :=
  (walk.filter isDecision).length

/-- Modelled from the spec: cyclomatic complexity is 1 plus the number of
decision points of the method body. -/
def ccSpec (walk : List WalkNode) : Nat :=
  1 + decisionPoints walk

/-- The walk of a class-body statement (`[]` for non-methods). -/
def walkOf : Stmt → List WalkNode
  | Stmt.functionDef _ w => w
  | Stmt.otherStmt => []

/-- The plain identifier carried by a walk node (`ast.Name` only). -/
def nodeRef : WalkNode → List String
  | WalkNode.nameNode i => [i]
  | _ => []

/-- The coupling filter of `analyze_method`: a referenced identifier is
recorded iff it is in the hard-coded list and differs from the class. -/
def refPred (c i : String) : Bool := decide (i ∈ knownClasses ∧ i ≠ c)

/-- The identifier references inside the bodies of one class declaration
that `analyze_method` treats as coupling when visiting class `c`: names in
the hard-coded `knownClasses` list other than `c` itself, in walk order.
Empty for a declaration of a different class. -/
def declRefs (d : ClassDecl) (c : String) : List String :=
  if d.name = c then ((d.body.flatMap walkOf).flatMap nodeRef).filter (refPred c)
  else []

/-- All coupling-relevant references to hard-coded names made by class `c`
across an analysis unit, in processing order. -/
def couplingRefs (decls : List ClassDecl) (c : String) : List String :=
  decls.flatMap (fun d => declRefs d c)

/-- Modelled from the spec: the claim's reading of CBO — the number of
distinct names, present in the registry built from the unit, that class
`c`'s methods reference, self excluded. -/
def cboRegistrySpec (decls : List ClassDecl) (c : String) : Nat :=
  (((decls.filter (fun d => d.name = c)).flatMap
      (fun d => (d.body.flatMap walkOf).flatMap nodeRef)).filter
    (fun i => decide ((lookupA (buildState decls).classes i).isSome ∧ i ≠ c))).toFinset.card

/-- The last base that is a plain name, if any (the one `recordBases`
leaves in the inheritance tree). -/
def lastNameBase : List BaseExpr → Option String
  | [] => none
  | BaseExpr.name i :: rest => some ((lastNameBase rest).getD i)
  | BaseExpr.other :: rest => lastNameBase rest

/-- All unordered pairs of list positions, as ordered pairs in traversal
order (the pairs the nested loops of `calculate_lcom` visit). -/
def pairList : List String → List (String × String)
  | [] => []
  | m :: rest => rest.map (fun m2 => (m, m2)) ++ pairList rest

/-- Modelled from the spec: `Q`, the number of method pairs whose
attribute-access sets intersect. -/
def qCount (f : String → List String) (ms : List String) : Nat :=
  ((pairList ms).filter (fun pr => sharesAttrs (f pr.1) (f pr.2))).length

/-- Modelled from the spec: `P`, the number of method pairs whose
attribute-access sets are disjoint. -/
def pCount (f : String → List String) (ms : List String) : Nat :=
  ((pairList ms).filter (fun pr => !sharesAttrs (f pr.1) (f pr.2))).length

/-- A parent chain in the inheritance tree: `chain` lists the successive
parents of `c` until a name with no recorded parent is reached. -/
def IsParentChain (tree : List (String × String)) : String → List String → Prop
  | c, [] => lookupA tree c = none
  | c, p :: rest => lookupA tree c = some p ∧ IsParentChain tree p rest

/-! ## Concrete analysis units used by counterexamples and witnesses -/

/-- Two mutually inheriting class declarations, `class A(B)` and
`class B(A)` — a syntactically valid unit whose inheritance tree is cyclic. -/
def cyclicUnit : List ClassDecl :=
  [⟨"A", [BaseExpr.name "B"], []⟩, ⟨"B", [BaseExpr.name "A"], []⟩]

/-- A class whose only base is a name absent from the registry. -/
def externalBaseUnit : List ClassDecl :=
  [⟨"A", [BaseExpr.name "External"], []⟩]

/-- Scenario A of the spec: `Person` with no base, `Student` with base
`Person`, with `Student` declaring two methods touching disjoint
attributes (scenario B). -/
def scenarioUnit : List ClassDecl :=
  [⟨"Person", [], []⟩,
   ⟨"Student", [BaseExpr.name "Person"],
     [Stmt.functionDef "register_course" [WalkNode.attrNode (some "self") "courses"],
      Stmt.functionDef "add_grade" [WalkNode.attrNode (some "self") "grades"]]⟩]

/-- A unit with a class `Foo` in the registry and a class `Bar` whose
method references `Foo`; `Foo` is not in the hard-coded name list. -/
def fooBarUnit : List ClassDecl :=
  [⟨"Foo", [], []⟩,
   ⟨"Bar", [], [Stmt.functionDef "m" [WalkNode.nameNode "Foo"]]⟩]

/-- A unit whose class `Student` declares `calculate_performance` with an
empty body walk — zero decision points. -/
def trivialStudentUnit : List ClassDecl :=
  [⟨"Student", [], [Stmt.functionDef "calculate_performance" []]⟩]

/-- A class declaration with two plain-name bases, `class C(A, B)`. -/
def multiBaseDecl : ClassDecl := ⟨"C", [BaseExpr.name "A", BaseExpr.name "B"], []⟩

/-- The coupling set currently recorded for a class (empty when absent) —
exactly the value `len(...)` is taken of in `calculate_cbo`. -/
def couplingAt (s : Analyzer) (c : String) : List String :=
  (lookupA s.coupling c).getD []

/-- The recorded method list of a class (empty when absent). -/
def methodsAt (s : Analyzer) (c : String) : List String :=
  (lookupA s.methods_per_class c).getD []

/-- The attribute-access set recorded for a method of a class — the
`method_attrs.get(method, set())` read of `calculate_lcom`. -/
def attrSetOf (s : Analyzer) (c : String) : String → List String :=
  fun m => (lookupA ((lookupA s.method_attribute_usage c).getD []) m).getD []

/-! ## Association-list lemmas -/

theorem lookupA_insertA_self {α : Type} (m : List (String × α)) (k : String) (v : α) :
    lookupA (insertA m k v) k = some v := by
  induction m with
  | nil => simp [insertA, lookupA]
  | cons p rest ih =>
      by_cases h : p.1 = k
      · simp [insertA, h, lookupA]
      · simp [insertA, h, lookupA, ih]

theorem lookupA_insertA_ne {α : Type} (m : List (String × α)) (k c : String) (v : α)
    (h : c ≠ k) : lookupA (insertA m k v) c = lookupA m c := by
  induction m with
  | nil => simp [insertA, lookupA, Ne.symm h]
  | cons p rest ih =>
      by_cases hp : p.1 = k
      · subst hp
        simp [insertA, lookupA, Ne.symm h]
      · simp [insertA, hp, lookupA, ih]

theorem lookupA_updateA_self {α : Type} (m : List (String × α)) (k : String) (d : α)
    (f : α → α) : lookupA (updateA m k d f) k = some (f ((lookupA m k).getD d)) := by
  induction m with
  | nil => simp [updateA, lookupA]
  | cons p rest ih =>
      by_cases h : p.1 = k
      · simp [updateA, h, lookupA]
      · simp [updateA, h, lookupA, ih]

theorem lookupA_updateA_ne {α : Type} (m : List (String × α)) (k c : String) (d : α)
    (f : α → α) (h : c ≠ k) : lookupA (updateA m k d f) c = lookupA m c := by
  induction m with
  | nil => simp [updateA, lookupA, Ne.symm h]
  | cons p rest ih =>
      by_cases hp : p.1 = k
      · subst hp
        simp [updateA, lookupA, Ne.symm h]
      · simp [updateA, hp, lookupA, ih]

theorem dGet_fst {α : Type} (m : List (String × α)) (k : String) (d : α) :
    (dGet m k d).1 = (lookupA m k).getD d := by
  induction m with
  | nil => simp [dGet, lookupA]
  | cons p rest ih =>
      by_cases h : p.1 = k
      · simp [dGet, h, lookupA]
      · simp [dGet, h, lookupA, ih]

theorem dGet_snd {α : Type} (m : List (String × α)) (k : String) (d : α) :
    (dGet m k d).2 = if (lookupA m k).isSome then m else m ++ [(k, d)] := by
  induction m with
  | nil => simp [dGet, lookupA]
  | cons p rest ih =>
      by_cases h : p.1 = k
      · simp [dGet, h, lookupA]
      · simp only [dGet, h, lookupA, if_neg h, ih]
        by_cases hs : (lookupA rest k).isSome <;> simp [hs]

/-! ## Frame lemmas: which analyzer fields each build step can touch -/

theorem analyzeNode_tree (cn mn : String) (s : Analyzer) (n : WalkNode) :
    (analyzeNode cn mn s n).inheritance_tree = s.inheritance_tree := by
  cases n with
  | attrNode v a => cases v <;> simp only [analyzeNode] <;> split <;> rfl
  | nameNode i => simp only [analyzeNode]; split <;> rfl
  | ifNode => rfl
  | forNode => rfl
  | whileNode => rfl
  | exceptHandlerNode => rfl
  | boolOpNode => rfl
  | otherNode => rfl

theorem analyzeNode_classes (cn mn : String) (s : Analyzer) (n : WalkNode) :
    (analyzeNode cn mn s n).classes = s.classes := by
  cases n with
  | attrNode v a => cases v <;> simp only [analyzeNode] <;> split <;> rfl
  | nameNode i => simp only [analyzeNode]; split <;> rfl
  | ifNode => rfl
  | forNode => rfl
  | whileNode => rfl
  | exceptHandlerNode => rfl
  | boolOpNode => rfl
  | otherNode => rfl

theorem analyzeNode_mpc (cn mn : String) (s : Analyzer) (n : WalkNode) :
    (analyzeNode cn mn s n).methods_per_class = s.methods_per_class := by
  cases n with
  | attrNode v a => cases v <;> simp only [analyzeNode] <;> split <;> rfl
  | nameNode i => simp only [analyzeNode]; split <;> rfl
  | ifNode => rfl
  | forNode => rfl
  | whileNode => rfl
  | exceptHandlerNode => rfl
  | boolOpNode => rfl
  | otherNode => rfl

theorem analyze_method_tree (cn mn : String) (w : List WalkNode) (s : Analyzer) :
    (analyze_method cn mn w s).inheritance_tree = s.inheritance_tree := by
  induction w generalizing s with
  | nil => rfl
  | cons n rest ih => simp [analyze_method, List.foldl_cons] at ih ⊢; rw [ih, analyzeNode_tree]

theorem analyze_method_classes (cn mn : String) (w : List WalkNode) (s : Analyzer) :
    (analyze_method cn mn w s).classes = s.classes := by
  induction w generalizing s with
  | nil => rfl
  | cons n rest ih => simp [analyze_method, List.foldl_cons] at ih ⊢; rw [ih, analyzeNode_classes]

theorem analyze_method_mpc (cn mn : String) (w : List WalkNode) (s : Analyzer) :
    (analyze_method cn mn w s).methods_per_class = s.methods_per_class := by
  induction w generalizing s with
  | nil => rfl
  | cons n rest ih => simp [analyze_method, List.foldl_cons] at ih ⊢; rw [ih, analyzeNode_mpc]

theorem processStmt_tree (cn : String) (st : Analyzer) (item : Stmt) :
    (processStmt cn st item).inheritance_tree = st.inheritance_tree := by
  cases item with
  | functionDef mname walk => simp only [processStmt]; rw [analyze_method_tree]
  | otherStmt => rfl

theorem bodyFold_tree (cn : String) (body : List Stmt) (st : Analyzer) :
    (body.foldl (processStmt cn) st).inheritance_tree = st.inheritance_tree := by
  induction body generalizing st with
  | nil => rfl
  | cons item rest ih => rw [List.foldl_cons, ih, processStmt_tree]

theorem visit_ClassDef_tree (s : Analyzer) (d : ClassDecl) :
    (visit_ClassDef s d).inheritance_tree = recordBases s.inheritance_tree d.name d.bases := by
  simp only [visit_ClassDef]
  rw [bodyFold_tree]

/-! ## Inheritance-tree lemmas -/

theorem lookupA_recordBases_self (t : List (String × String)) (n : String) (bs : List BaseExpr) :
    lookupA (recordBases t n bs) n =
      match lastNameBase bs with
      | some b => some b
      | none => lookupA t n := by
  induction bs generalizing t with
  | nil => rfl
  | cons b rest ih =>
      cases b with
      | name i =>
          simp only [recordBases, List.foldl_cons] at ih ⊢
          rw [ih (insertA t n i), lastNameBase]
          cases hl : lastNameBase rest with
          | some b0 => simp [hl]
          | none => simp [hl, lookupA_insertA_self]
      | other =>
          simp only [recordBases, List.foldl_cons] at ih ⊢
          rw [ih t, lastNameBase]

theorem lookupA_recordBases_ne (t : List (String × String)) (n c : String) (bs : List BaseExpr)
    (h : c ≠ n) : lookupA (recordBases t n bs) c = lookupA t c := by
  induction bs generalizing t with
  | nil => rfl
  | cons b rest ih =>
      cases b with
      | name i =>
          simp only [recordBases, List.foldl_cons] at ih ⊢
          rw [ih (insertA t n i), lookupA_insertA_ne _ _ _ _ h]
      | other =>
          simp only [recordBases, List.foldl_cons] at ih ⊢
          exact ih t

/-! ## Coupling lemmas -/

theorem analyzeNode_coupling_ne (cn mn c : String) (s : Analyzer) (n : WalkNode) (h : c ≠ cn) :
    lookupA (analyzeNode cn mn s n).coupling c = lookupA s.coupling c := by
  cases n with
  | attrNode v a => cases v <;> simp only [analyzeNode] <;> split <;> rfl
  | nameNode i =>
      simp only [analyzeNode]
      split
      · exact lookupA_updateA_ne _ _ _ _ _ h
      · rfl
  | ifNode => rfl
  | forNode => rfl
  | whileNode => rfl
  | exceptHandlerNode => rfl
  | boolOpNode => rfl
  | otherNode => rfl

theorem analyzeNode_couplingAt (cn mn : String) (s : Analyzer) (n : WalkNode) :
    couplingAt (analyzeNode cn mn s n) cn =
      List.foldl setAdd (couplingAt s cn) ((nodeRef n).filter (refPred cn)) := by
  cases n with
  | attrNode v a =>
      cases v <;> simp only [analyzeNode, nodeRef, couplingAt, List.filter_nil, List.foldl_nil] <;>
        split <;> rfl
  | nameNode i =>
      simp only [analyzeNode, nodeRef, couplingAt]
      by_cases h : i ∈ knownClasses ∧ i ≠ cn
      · rw [if_pos h]
        simp only [lookupA_updateA_self, Option.getD_some]
        simp [refPred, h]
      · rw [if_neg h]
        simp [refPred, h]
  | ifNode => rfl
  | forNode => rfl
  | whileNode => rfl
  | exceptHandlerNode => rfl
  | boolOpNode => rfl
  | otherNode => rfl

theorem analyze_method_coupling_ne (cn mn c : String) (w : List WalkNode) (s : Analyzer)
    (h : c ≠ cn) : lookupA (analyze_method cn mn w s).coupling c = lookupA s.coupling c := by
  induction w generalizing s with
  | nil => rfl
  | cons n rest ih =>
      simp only [analyze_method, List.foldl_cons] at ih ⊢
      rw [ih, analyzeNode_coupling_ne _ _ _ _ _ h]

theorem analyze_method_couplingAt (cn mn : String) (w : List WalkNode) (s : Analyzer) :
    couplingAt (analyze_method cn mn w s) cn =
      List.foldl setAdd (couplingAt s cn) ((w.flatMap nodeRef).filter (refPred cn)) := by
  induction w generalizing s with
  | nil => rfl
  | cons n rest ih =>
      simp only [analyze_method, List.foldl_cons] at ih ⊢
      rw [ih, analyzeNode_couplingAt, List.flatMap_cons, List.filter_append, List.foldl_append]

theorem processStmt_coupling_ne (cn c : String) (st : Analyzer) (item : Stmt) (h : c ≠ cn) :
    lookupA (processStmt cn st item).coupling c = lookupA st.coupling c := by
  cases item with
  | functionDef mname walk =>
      simp only [processStmt]
      rw [analyze_method_coupling_ne _ _ _ _ _ h]
  | otherStmt => rfl

theorem processStmt_couplingAt (cn : String) (st : Analyzer) (item : Stmt) :
    couplingAt (processStmt cn st item) cn =
      List.foldl setAdd (couplingAt st cn) (((walkOf item).flatMap nodeRef).filter (refPred cn)) := by
  cases item with
  | functionDef mname walk =>
      simp only [processStmt, walkOf]
      rw [analyze_method_couplingAt]
      rfl
  | otherStmt => rfl

theorem bodyFold_coupling_ne (cn c : String) (body : List Stmt) (st : Analyzer) (h : c ≠ cn) :
    lookupA (body.foldl (processStmt cn) st).coupling c = lookupA st.coupling c := by
  induction body generalizing st with
  | nil => rfl
  | cons item rest ih => rw [List.foldl_cons, ih, processStmt_coupling_ne _ _ _ _ h]

theorem bodyFold_couplingAt (cn : String) (body : List Stmt) (st : Analyzer) :
    couplingAt (body.foldl (processStmt cn) st) cn =
      List.foldl setAdd (couplingAt st cn)
        (((body.flatMap walkOf).flatMap nodeRef).filter (refPred cn)) := by
  induction body generalizing st with
  | nil => rfl
  | cons item rest ih =>
      rw [List.foldl_cons, ih, processStmt_couplingAt, List.flatMap_cons, List.flatMap_append,
        List.filter_append, List.foldl_append]

theorem visit_ClassDef_couplingAt (s : Analyzer) (d : ClassDecl) (c : String) :
    couplingAt (visit_ClassDef s d) c = List.foldl setAdd (couplingAt s c) (declRefs d c) := by
  by_cases h : d.name = c
  · subst h
    simp only [visit_ClassDef]
    rw [bodyFold_couplingAt]
    simp only [declRefs, if_pos rfl]
    rfl
  · simp only [visit_ClassDef, declRefs, if_neg h, List.foldl_nil]
    unfold couplingAt
    rw [bodyFold_coupling_ne _ _ _ _ (Ne.symm h)]

theorem buildFold_couplingAt (c : String) (decls : List ClassDecl) (s : Analyzer) :
    couplingAt (decls.foldl visit_ClassDef s) c =
      List.foldl setAdd (couplingAt s c) (couplingRefs decls c) := by
  induction decls generalizing s with
  | nil => rfl
  | cons d rest ih =>
      rw [List.foldl_cons, ih, visit_ClassDef_couplingAt]
      simp only [couplingRefs, List.flatMap_cons, List.foldl_append]

/-! ## Python-set cardinality lemmas -/

theorem setAdd_toFinset (l : List String) (a : String) :
    (setAdd l a).toFinset = insert a l.toFinset := by
  by_cases h : a ∈ l
  · simp only [setAdd, if_pos h]
    exact (Finset.insert_eq_self.mpr (List.mem_toFinset.mpr h)).symm
  · ext x
    simp [setAdd, h, or_comm]

theorem setAdd_nodup (l : List String) (a : String) (h : l.Nodup) : (setAdd l a).Nodup := by
  by_cases hm : a ∈ l
  · simpa [setAdd, hm] using h
  · simp only [setAdd, if_neg hm, List.nodup_append]
    refine ⟨h, List.nodup_singleton a, ?_⟩
    intro x hx hxa
    cases List.mem_singleton.mp hxa
    exact hm hx

theorem foldl_setAdd_toFinset (xs l : List String) :
    (List.foldl setAdd l xs).toFinset = l.toFinset ∪ xs.toFinset := by
  induction xs generalizing l with
  | nil => simp
  | cons a rest ih =>
      rw [List.foldl_cons, ih, setAdd_toFinset]
      simp [Finset.insert_union, Finset.union_insert]

theorem foldl_setAdd_nodup (xs l : List String) (h : l.Nodup) : (List.foldl setAdd l xs).Nodup := by
  induction xs generalizing l with
  | nil => exact h
  | cons a rest ih => exact ih _ (setAdd_nodup _ _ h)

theorem foldl_setAdd_length (xs : List String) :
    (List.foldl setAdd [] xs).length = xs.toFinset.card := by
  have h1 : (List.foldl setAdd [] xs).Nodup := foldl_setAdd_nodup xs [] List.nodup_nil
  have h2 : (List.foldl setAdd [] xs).toFinset = xs.toFinset := by
    rw [foldl_setAdd_toFinset]; simp
  rw [← h2, List.toFinset_card_of_nodup h1]

/-! ## Frame lemmas for `methods_per_class` and the inheritance tree across a build -/

theorem processStmt_mpc_ne (cn c : String) (st : Analyzer) (item : Stmt) (h : c ≠ cn) :
    lookupA (processStmt cn st item).methods_per_class c = lookupA st.methods_per_class c := by
  cases item with
  | functionDef mname walk =>
      simp only [processStmt]
      rw [analyze_method_mpc]
      exact lookupA_updateA_ne _ _ _ _ _ h
  | otherStmt => rfl

theorem bodyFold_mpc_ne (cn c : String) (body : List Stmt) (st : Analyzer) (h : c ≠ cn) :
    lookupA (body.foldl (processStmt cn) st).methods_per_class c =
      lookupA st.methods_per_class c := by
  induction body generalizing st with
  | nil => rfl
  | cons item rest ih => rw [List.foldl_cons, ih, processStmt_mpc_ne _ _ _ _ h]

theorem visit_ClassDef_mpc_ne (s : Analyzer) (d : ClassDecl) (c : String) (h : c ≠ d.name) :
    lookupA (visit_ClassDef s d).methods_per_class c = lookupA s.methods_per_class c := by
  simp only [visit_ClassDef]
  rw [bodyFold_mpc_ne _ _ _ _ h]

theorem buildFold_mpc_ne (c : String) (decls : List ClassDecl) (s : Analyzer)
    (h : c ∉ decls.map ClassDecl.name) :
    lookupA (decls.foldl visit_ClassDef s).methods_per_class c =
      lookupA s.methods_per_class c := by
  induction decls generalizing s with
  | nil => rfl
  | cons d rest ih =>
      simp only [List.map_cons, List.mem_cons, not_or] at h
      rw [List.foldl_cons, ih _ h.2, visit_ClassDef_mpc_ne _ _ _ h.1]

theorem buildFold_tree_ne (c : String) (decls : List ClassDecl) (s : Analyzer)
    (h : c ∉ decls.map ClassDecl.name) :
    lookupA (decls.foldl visit_ClassDef s).inheritance_tree c =
      lookupA s.inheritance_tree c := by
  induction decls generalizing s with
  | nil => rfl
  | cons d rest ih =>
      simp only [List.map_cons, List.mem_cons, not_or] at h
      rw [List.foldl_cons, ih _ h.2, visit_ClassDef_tree, lookupA_recordBases_ne _ _ _ _ h.1]

theorem couplingRefs_not_declared (decls : List ClassDecl) (c : String)
    (h : c ∉ decls.map ClassDecl.name) : couplingRefs decls c = [] := by
  induction decls with
  | nil => rfl
  | cons d rest ih =>
      simp only [List.map_cons, List.mem_cons, not_or] at h
      simp only [couplingRefs, List.flatMap_cons] at ih ⊢
      rw [ih h.2, declRefs, if_neg (fun hh => h.1 hh.symm)]
      rfl

/-! ## LCOM lemmas: the nested loops count exactly the method pairs -/

theorem length_filter_map_pair (m : String) (rest : List String) (p : String × String → Bool) :
    ((rest.map (fun m2 => (m, m2))).filter p).length =
      (rest.filter (fun m2 => p (m, m2))).length := by
  induction rest with
  | nil => rfl
  | cons x xs ih =>
      by_cases hp : p (m, x) = true
      · simp [List.filter_cons, hp, ih]
      · simp [List.filter_cons, hp, ih]

theorem lcomLoop_eq (f : String → List String) (ms : List String) :
    lcomLoop f ms = (pCount f ms, qCount f ms) := by
  induction ms with
  | nil => rfl
  | cons m rest ih =>
      have hq :
          ((rest.map (fun m2 => (m, m2))).filter
            (fun pr => sharesAttrs (f pr.1) (f pr.2))).length =
            (rest.filter (fun m2 => sharesAttrs (f m) (f m2))).length :=
        length_filter_map_pair m rest _
      have hp :
          ((rest.map (fun m2 => (m, m2))).filter
            (fun pr => !sharesAttrs (f pr.1) (f pr.2))).length =
            (rest.filter (fun m2 => !sharesAttrs (f m) (f m2))).length :=
        length_filter_map_pair m rest _
      have hsplit :=
        List.length_eq_length_filter_add (l := rest) (fun m2 => sharesAttrs (f m) (f m2))
      simp only [lcomLoop, ih, pCount, qCount, pairList, List.filter_append, List.length_append,
        hq, hp, Prod.mk.injEq]
      constructor
      · simp only [Bool.not_eq_true'] at hsplit ⊢
        omega
      · omega

/-! ## DIT loop lemmas -/

theorem ditLoop_chain (tree : List (String × String)) (chain : List String) :
    ∀ (c : String) (d fuel : Nat), IsParentChain tree c chain → chain.length < fuel →
      ditLoop tree fuel c d = some (d + chain.length) := by
  induction chain with
  | nil =>
      intro c d fuel h hf
      cases fuel with
      | zero => omega
      | succ f => simp only [ditLoop, IsParentChain] at h ⊢; rw [h]; rfl
  | cons p rest ih =>
      intro c d fuel h hf
      cases fuel with
      | zero => simp at hf
      | succ f =>
          simp only [IsParentChain] at h
          simp only [ditLoop, h.1]
          rw [ih p (d + 1) f h.2 (by simp only [List.length_cons] at hf; omega)]
          simp only [List.length_cons]
          congr 1
          omega

/-! ## Claim theorems -/

theorem ditLoop_cycleAB :
    ∀ (fuel d : Nat) (cur : String), cur = "A" ∨ cur = "B" →
      ditLoop [("A", "B"), ("B", "A")] fuel cur d = none := by
  intro fuel
  induction fuel with
  | zero => intro d cur h; rfl
  | succ f ih =>
      intro d cur h
      rcases h with h | h <;> subst h
      · exact ih (d + 1) "B" (Or.inr rfl)
      · exact ih (d + 1) "A" (Or.inl rfl)

/-- C1: the claim says `calculate_dit` terminates on every inheritance
mapping, detecting cycles.  The code has no cycle detection: on the unit
`class A(B); class B(A)` the `while current in self.inheritance_tree` loop
never exits.  In the fuel-indexed embedding this reads: for every fuel
bound the loop is still running (`none`), i.e. the Python loop diverges. -/
theorem claim_C1_dit_cycle_loops_forever (fuel : Nat) :
    calculate_dit (buildState cyclicUnit) "A" fuel = none := by
  have ht : (buildState cyclicUnit).inheritance_tree = [("A", "B"), ("B", "A")] := rfl
  simp only [calculate_dit, ht]
  exact ditLoop_cycleAB fuel 0 "A" (Or.inl rfl)

/-- C2 (counterexample): in a unit whose `Student.calculate_performance`
has an empty body (zero decision points, so the spec's cyclomatic
complexity is 1), the report's CC table still shows the hard-coded row
claiming CC 17 for that very method: nothing is computed from the input. -/
theorem claim_C2_counterexample_cc_hardcoded :
    ccSpec [] = 1 ∧
    lookupA (buildState trivialStudentUnit).classes "Student" =
      some { methods := ["calculate_performance"], attributes := [],
             base_classes := [], lines := 1 } ∧
    (ccSectionLines (buildState trivialStudentUnit)).get? 4 =
      some "Student.calculate_performance                | 17  | C     | HIGH - Needs refactoring" ∧
    (17 : Nat) ≠ ccSpec [] :=
  ⟨rfl, rfl, rfl, by decide⟩

/-- C2 (amended): the cyclomatic-complexity section of the report is
constant hard-coded text, identical for every analyzer state; no
cyclomatic complexity is computed from method bodies. -/
theorem claim_C2_amended_cc_section_constant (s : Analyzer) :
    ccSectionLines s = ccSectionLines initAnalyzer := rfl

/-- C5 (counterexample): a registered class `A` whose only base `External`
is absent from the registry gets `calculate_dit = 1` — the hop onto the
unknown base is counted — not `0` as the claim's second sentence states. -/
theorem claim_C5_counterexample_external_base :
    calculate_dit (buildState externalBaseUnit) "A" 10 = some 1 ∧
    lookupA (buildState externalBaseUnit).classes "External" = none ∧
    (1 : Nat) ≠ 0 :=
  ⟨rfl, rfl, by decide⟩

/-- C5 (amended): `calculate_dit` returns the number of recorded parent
links followed from the class until a name with no recorded parent is
reached (`IsParentChain` lists those successive parents): a class with no
recorded base gives 0, and a class whose recorded base is absent from the
registry gives 1 — that hop is counted, the traversal stops after it. -/
theorem claim_C5_amended_dit_counts_hops (s : Analyzer) (c : String) (chain : List String)
    (fuel : Nat) (h1 : IsParentChain s.inheritance_tree c chain) (h2 : chain.length < fuel) :
    calculate_dit s c fuel = some chain.length := by
  have h := ditLoop_chain s.inheritance_tree chain c 0 fuel h1 h2
  simpa [calculate_dit] using h

/-- C5 (witness): on scenario A (`Person` with no base, `Student(Person)`),
the amended theorem yields `DIT(Student) = 1`. -/
theorem claim_C5_amended_dit_counts_hops_witness :
    calculate_dit (buildState scenarioUnit) "Student" 5 = some 1 := by
  have h : IsParentChain (buildState scenarioUnit).inheritance_tree "Student" ["Person"] :=
    ⟨rfl, rfl⟩
  exact claim_C5_amended_dit_counts_hops _ _ ["Person"] 5 h (by decide)

/-- C6 (counterexample): visiting `class C(A, B)` records `B` — the last
plain-name base — as `C`'s parent in the inheritance tree, not the first
base `A` as the claim states. -/
theorem claim_C6_counterexample_first_base :
    lookupA (visit_ClassDef initAnalyzer multiBaseDecl).inheritance_tree "C" = some "B" ∧
    (some "B" : Option String) ≠ some "A" :=
  ⟨rfl, by decide⟩

/-- C6 (amended): for every class declaration, the parent recorded for DIT
is the LAST base that is a plain name (each plain-name base overwrites the
previous entry); when no base is a plain name the entry is untouched.  No
error is raised in any case. -/
theorem claim_C6_amended_last_base_wins (s : Analyzer) (d : ClassDecl) :
    lookupA (visit_ClassDef s d).inheritance_tree d.name =
      match lastNameBase d.bases with
      | some b => some b
      | none => lookupA s.inheritance_tree d.name := by
  rw [visit_ClassDef_tree]
  exact lookupA_recordBases_self _ _ _

/-- C7: a flag is emitted iff its metric strictly exceeds its hard-coded
threshold (3 for coupling, 5 for cohesion, 7 for method count); at the
boundary no flag is emitted; the emitted flags are always an in-order
sublist of the three flags (comma-joined by `issueStr`), and an empty flag
list is reported as `OK`. -/
theorem claim_C7_flags (cbo lcom methods : Nat) :
    ("High coupling" ∈ issuesFor cbo lcom methods ↔ 3 < cbo) ∧
    ("Low cohesion" ∈ issuesFor cbo lcom methods ↔ 5 < lcom) ∧
    ("Too many methods" ∈ issuesFor cbo lcom methods ↔ 7 < methods) ∧
    List.Sublist (issuesFor cbo lcom methods)
      ["High coupling", "Low cohesion", "Too many methods"] ∧
    (issuesFor cbo lcom methods = [] → issueStr (issuesFor cbo lcom methods) = "OK") ∧
    (issuesFor cbo lcom methods ≠ [] →
      issueStr (issuesFor cbo lcom methods) =
        String.intercalate ", " (issuesFor cbo lcom methods)) := by
  unfold issuesFor issueStr
  by_cases h1 : 3 < cbo <;> by_cases h2 : 5 < lcom <;> by_cases h3 : 7 < methods <;>
    simp [h1, h2, h3]

/-- C7 (witness): at the exact boundary (CBO 3, LCOM 5, 7 methods) no flag
is emitted and the class is reported `OK`. -/
theorem claim_C7_flags_witness :
    issueStr (issuesFor 3 5 7) = "OK" ∧ "High coupling" ∉ issuesFor 3 5 7 := by
  have h := claim_C7_flags 3 5 7
  exact ⟨h.2.2.2.2.1 rfl, fun hm => absurd (h.1.mp hm) (by decide)⟩

/-- C8 (counterexample): the claim says the emitted flags follow any given
configuration.  With `cboHighCoupling` overridden to 10 the spec evaluator
emits no flag at CBO 4, but the code — whose thresholds are the literals
3, 5, 7 inside `generate_report`, with no configuration input — still
emits `High coupling`. -/
theorem claim_C8_counterexample_no_config :
    evaluate ⟨10, 5, 7⟩ 4 0 0 = [] ∧ issuesFor 4 0 0 = ["High coupling"] ∧
    evaluate ⟨10, 5, 7⟩ 4 0 0 ≠ issuesFor 4 0 0 :=
  ⟨rfl, rfl, by decide⟩

/-- C8 (amended): the code's flag computation coincides with the spec's
threshold evaluator applied at the fixed default configuration (3, 5, 7)
only; no configuration can be supplied to it. -/
theorem claim_C8_amended_fixed_defaults (cbo lcom methods : Nat) :
    issuesFor cbo lcom methods = evaluate defaultConfig cbo lcom methods := rfl

/-- C3: for every analyzer state and class, `calculate_lcom` returns
`max(P − Q, 0)` where `Q` counts the unordered pairs of declared methods
whose recorded attribute-access sets intersect and `P` the remaining
pairs; and a class with at most one declared method gets 0. -/
theorem claim_C3_lcom_max_p_minus_q (s : Analyzer) (c : String) :
    ((methodsAt s c).length ≤ 1 → (calculate_lcom s c).1 = 0) ∧
    (calculate_lcom s c).1 =
      Int.toNat (max ((pCount (attrSetOf s c) (methodsAt s c) : Int) -
        (qCount (attrSetOf s c) (methodsAt s c) : Int)) 0) := by
  have hm : (dGet s.methods_per_class c []).1 = methodsAt s c := by
    rw [dGet_fst]; rfl
  constructor
  · intro h
    simp only [calculate_lcom, hm]
    rw [if_pos h]
  · by_cases h : (methodsAt s c).length ≤ 1
    · have hpl : pairList (methodsAt s c) = [] := by
        cases hm2 : methodsAt s c with
        | nil => rfl
        | cons a t =>
            cases t with
            | nil => rfl
            | cons b t2 => rw [hm2] at h; simp at h
      simp only [calculate_lcom, hm]
      rw [if_pos h]
      simp [pCount, qCount, hpl]
    · simp only [calculate_lcom, hm]
      rw [if_neg h, lcomLoop_eq]
      simp only [dGet_fst]
      show pCount (attrSetOf s c) (methodsAt s c) - qCount (attrSetOf s c) (methodsAt s c) =
        Int.toNat (max ((pCount (attrSetOf s c) (methodsAt s c) : Int) -
          (qCount (attrSetOf s c) (methodsAt s c) : Int)) 0)
      omega

/-- C3 (witness): a class absent from the registry has no declared
methods, so its LCOM is 0 by the at-most-one-method clause. -/
theorem claim_C3_lcom_max_p_minus_q_witness :
    (calculate_lcom initAnalyzer "X").1 = 0 :=
  (claim_C3_lcom_max_p_minus_q initAnalyzer "X").1 (by decide)

/-- C4 (counterexample): in a unit declaring classes `Foo` and `Bar`,
where `Bar`'s method references `Foo` (a name present in the registry but
not in the hard-coded list), the claim's registry-based reading gives
CBO(Bar) = 1 while the code returns 0 — coupling is matched against the
hard-coded list, not the registry. -/
theorem claim_C4_counterexample_registry :
    (calculate_cbo (buildState fooBarUnit) "Bar").1 = 0 ∧
    cboRegistrySpec fooBarUnit "Bar" = 1 :=
  ⟨rfl, rfl⟩

/-- C4 (amended): `calculate_cbo` returns the number of DISTINCT names
among the hard-coded list `["Student", "Course", "Lecturer", "Registrar",
"Person"]`, other than the class itself, that the class's methods
reference (`couplingRefs` filters by exactly that list); repetition never
inflates the count, and the registry plays no role. -/
theorem claim_C4_amended_fixed_list (decls : List ClassDecl) (c : String) :
    (calculate_cbo (buildState decls) c).1 = (couplingRefs decls c).toFinset.card := by
  have h1 : (calculate_cbo (buildState decls) c).1 =
      (couplingAt (buildState decls) c).length := by
    simp only [calculate_cbo, dGet_fst]; rfl
  rw [h1]
  show (couplingAt (decls.foldl visit_ClassDef initAnalyzer) c).length = _
  rw [buildFold_couplingAt]
  have h2 : couplingAt initAnalyzer c = [] := rfl
  rw [h2, foldl_setAdd_length]

/-- C9 (counterexample): the metric functions are claimed side-effect
free, but `calculate_cbo` on a fresh analyzer inserts an empty default
entry for the queried class into the `coupling` defaultdict, changing the
analyzer state. -/
theorem claim_C9_counterexample_cbo_mutates :
    (calculate_cbo initAnalyzer "A").2 ≠ initAnalyzer := by decide

/-- C9 (amended): `calculate_cbo` and `calculate_lcom` leave every field
of the state unchanged except that a `defaultdict` read may append one
empty entry for the queried class (to `coupling` for CBO; to
`methods_per_class` and `method_attribute_usage` for LCOM); when the
`coupling` key is already present `calculate_cbo` changes nothing
(`calculate_dit` performs plain-dict reads only and is embedded as a pure
function). -/
theorem claim_C9_amended_frame (s : Analyzer) (c : String) :
    ((calculate_cbo s c).2.classes = s.classes ∧
     (calculate_cbo s c).2.inheritance_tree = s.inheritance_tree ∧
     (calculate_cbo s c).2.methods_per_class = s.methods_per_class ∧
     (calculate_cbo s c).2.attributes_per_class = s.attributes_per_class ∧
     (calculate_cbo s c).2.method_attribute_usage = s.method_attribute_usage) ∧
    ((calculate_cbo s c).2.coupling = s.coupling ∨
     (calculate_cbo s c).2.coupling = s.coupling ++ [(c, [])]) ∧
    ((calculate_lcom s c).2.classes = s.classes ∧
     (calculate_lcom s c).2.inheritance_tree = s.inheritance_tree ∧
     (calculate_lcom s c).2.coupling = s.coupling ∧
     (calculate_lcom s c).2.attributes_per_class = s.attributes_per_class) ∧
    ((calculate_lcom s c).2.methods_per_class = s.methods_per_class ∨
     (calculate_lcom s c).2.methods_per_class = s.methods_per_class ++ [(c, [])]) ∧
    ((calculate_lcom s c).2.method_attribute_usage = s.method_attribute_usage ∨
     (calculate_lcom s c).2.method_attribute_usage = s.method_attribute_usage ++ [(c, [])]) ∧
    ((lookupA s.coupling c).isSome = true → (calculate_cbo s c).2 = s) := by
  refine ⟨⟨rfl, rfl, rfl, rfl, rfl⟩, ?_, ?_, ?_, ?_, ?_⟩
  · show (dGet s.coupling c []).2 = s.coupling ∨ (dGet s.coupling c []).2 = s.coupling ++ [(c, [])]
    rw [dGet_snd]
    by_cases hs : (lookupA s.coupling c).isSome
    · rw [if_pos hs]; exact Or.inl rfl
    · rw [if_neg hs]; exact Or.inr rfl
  · simp only [calculate_lcom]
    split <;> exact ⟨rfl, rfl, rfl, rfl⟩
  · simp only [calculate_lcom]
    have hd : (dGet s.methods_per_class c []).2 = s.methods_per_class ∨
        (dGet s.methods_per_class c []).2 = s.methods_per_class ++ [(c, [])] := by
      rw [dGet_snd]
      by_cases hs : (lookupA s.methods_per_class c).isSome
      · rw [if_pos hs]; exact Or.inl rfl
      · rw [if_neg hs]; exact Or.inr rfl
    split <;> exact hd
  · simp only [calculate_lcom]
    split
    · exact Or.inl rfl
    · show (dGet s.method_attribute_usage c []).2 = _ ∨ (dGet s.method_attribute_usage c []).2 = _
      rw [dGet_snd]
      by_cases hs : (lookupA s.method_attribute_usage c).isSome
      · rw [if_pos hs]; exact Or.inl rfl
      · rw [if_neg hs]; exact Or.inr rfl
  · intro hs
    show { s with coupling := (dGet s.coupling c []).2 } = s
    rw [dGet_snd, if_pos hs]

/-- C9 (witness): once the `coupling` key exists, a further
`calculate_cbo` call really does leave the state untouched. -/
theorem claim_C9_amended_frame_witness :
    (calculate_cbo (calculate_cbo initAnalyzer "A").2 "A").2 =
      (calculate_cbo initAnalyzer "A").2 :=
  (claim_C9_amended_frame ((calculate_cbo initAnalyzer "A").2) "A").2.2.2.2.2 (by decide)

/-- C10: for every class name not registered by any visited class
declaration, the three metric functions return 0 (DIT needs one loop test,
hence any positive fuel) — no error is raised on unknown names. -/
theorem claim_C10_unknown_class_zero (decls : List ClassDecl) (c : String)
    (h : c ∉ decls.map ClassDecl.name) :
    (∀ fuel, 0 < fuel → calculate_dit (buildState decls) c fuel = some 0) ∧
    (calculate_cbo (buildState decls) c).1 = 0 ∧
    (calculate_lcom (buildState decls) c).1 = 0 := by
  have htree : lookupA (buildState decls).inheritance_tree c = none := by
    show lookupA (decls.foldl visit_ClassDef initAnalyzer).inheritance_tree c = none
    rw [buildFold_tree_ne c decls initAnalyzer h]; rfl
  have hmpc : lookupA (buildState decls).methods_per_class c = none := by
    show lookupA (decls.foldl visit_ClassDef initAnalyzer).methods_per_class c = none
    rw [buildFold_mpc_ne c decls initAnalyzer h]; rfl
  refine ⟨?_, ?_, ?_⟩
  · intro fuel hf
    cases fuel with
    | zero => omega
    | succ f => simp only [calculate_dit, ditLoop, htree]
  · have h1 : (calculate_cbo (buildState decls) c).1 =
        (couplingAt (buildState decls) c).length := by
      simp only [calculate_cbo, dGet_fst]; rfl
    rw [h1]
    show (couplingAt (decls.foldl visit_ClassDef initAnalyzer) c).length = 0
    rw [buildFold_couplingAt, couplingRefs_not_declared decls c h]
    rfl
  · have h2 : (dGet (buildState decls).methods_per_class c []).1 = [] := by
      rw [dGet_fst, hmpc]; rfl
    simp only [calculate_lcom, h2]
    rfl

/-- C10 (witness): in a unit declaring only `Student`, the never-declared
name `Ghost` gets DIT, CBO and LCOM all equal to 0. -/
theorem claim_C10_unknown_class_zero_witness :
    calculate_dit (buildState trivialStudentUnit) "Ghost" 3 = some 0 ∧
    (calculate_cbo (buildState trivialStudentUnit) "Ghost").1 = 0 ∧
    (calculate_lcom (buildState trivialStudentUnit) "Ghost").1 = 0 := by
  have h := claim_C10_unknown_class_zero trivialStudentUnit "Ghost" (by decide)
  exact ⟨h.1 3 (by decide), h.2.1, h.2.2⟩

end UniMetrics
